import Mathlib

/-!
Shallow embedding of the daily-feature aggregation and ridge-regression
training pipeline of the repository (scripts/train_model.ts and
src/hooks/useCalendarTracking.ts).  JavaScript numbers are modelled by
exact rationals (ℚ); JavaScript `null`/`undefined` by `Option`;
`x || d` on a number substitutes `d` exactly when `x` is 0 (the only
falsy numeric value besides NaN, which cannot arise in exact
arithmetic).
-/

namespace TrainModel

/-- The index list `[s, s+1, …, s+n-1]`, modelling a `for` loop counter. -/
def natsFrom (s : Nat) : Nat → List Nat
  | 0 => []
  | n + 1 => s :: natsFrom (s + 1) n

/-- Map with the element index, starting the index at `k`; models an
indexed `for (j …)` loop over a row. -/
def mapWithIndex (f : Nat → ℚ → ℚ) (k : Nat) : List ℚ → List ℚ
  | [] => []
  | v :: t => f k v :: mapWithIndex f (k + 1) t

/-- `row.reduce((s, v, j) => s + v * beta[j], 0)` for vectors of equal
length. -/
def dot (u v : List ℚ) : ℚ := (List.zipWith (· * ·) u v).sum

/-- Entry `A[r][c]` of a row-major matrix; out-of-range reads give 0
(only used where the index is in range). -/
def getEntry (A : List (List ℚ)) (r c : Nat) : ℚ := (A.getD r []).getD c 0

/-- Swap elements `i` and `j` of a vector, as the destructuring swap
`[b[i], b[max]] = [b[max], b[i]]` does. -/
def swapList (l : List ℚ) (i j : Nat) : List ℚ :=
  (l.set i (l.getD j 0)).set j (l.getD i 0)

/-- Swap rows `i` and `j` of a matrix. -/
def swapRows (A : List (List ℚ)) (i j : Nat) : List (List ℚ) :=
  (A.set i (A.getD j [])).set j (A.getD i [])

/-- `const piv = A[i][i] || 1e-12`: JavaScript `||` substitutes the
fallback exactly when the left operand is falsy, i.e. exactly 0. -/
def pivotClamp (x : ℚ) : ℚ := if x = 0 then 1 / 10 ^ 12 else x

/-- Partial pivoting: `let max = i; for (r = i+1; r < p; r++) if
(|A[r][i]| > |A[max][i]|) max = r`. -/
def argmaxRow (A : List (List ℚ)) (i p : Nat) : Nat :=
  (natsFrom (i + 1) (p - (i + 1))).foldl
    (fun m r => if |getEntry A r i| > |getEntry A m i| then r else m) i

/-- `for (j = i; j < p; j++) A[i][j] /= piv` applied to one row. -/
def divRowFrom (row : List ℚ) (i : Nat) (piv : ℚ) : List ℚ :=
  mapWithIndex (fun j v => if i ≤ j then v / piv else v) 0 row

/-- `for (j = i; j < p; j++) A[r][j] -= f * A[i][j]` applied to row `r`. -/
def subRowFrom (rowr rowi : List ℚ) (f : ℚ) (i : Nat) : List ℚ :=
  mapWithIndex (fun j v => if i ≤ j then v - f * rowi.getD j 0 else v) 0 rowr

/-- The elimination of column `i` from row `r` (`for (r = 0; r < p; r++)
{ if (r === i) continue; … }`), as a fold step over the state `(A, b)`. -/
def elimRow (i : Nat) (st : List (List ℚ) × List ℚ) (r : Nat) :
    List (List ℚ) × List ℚ :=
  if r = i then st
  else
    let f := getEntry st.1 r i
    (st.1.set r (subRowFrom (st.1.getD r []) (st.1.getD i []) f i),
     st.2.set r (st.2.getD r 0 - f * st.2.getD i 0))

/-- One iteration of the outer Gauss–Jordan loop of `ridgeFit` at column
`i` with the pivot rule `piv`: partial-pivot swap, divide the pivot row,
then eliminate column `i` from every other row. -/
def gjStepWith (piv : ℚ → ℚ) (p : Nat) (st : List (List ℚ) × List ℚ)
    (i : Nat) : List (List ℚ) × List ℚ :=
  let maxr := argmaxRow st.1 i p
  let A₀ := swapRows st.1 i maxr
  let b₀ := swapList st.2 i maxr
  let pv := piv (getEntry A₀ i i)
  let A₁ := A₀.set i (divRowFrom (A₀.getD i []) i pv)
  let b₁ := b₀.set i (b₀.getD i 0 / pv)
  (natsFrom 0 p).foldl (elimRow i) (A₁, b₁)

/-- `gjStep` as the source has it: the pivot is `A[i][i] || 1e-12`. -/
def gjStep (p : Nat) (st : List (List ℚ) × List ℚ) (i : Nat) :
    List (List ℚ) × List ℚ := gjStepWith pivotClamp p st i

/-- The Gram matrix `XᵀX + λI` and right-hand side `Xᵀy` of `ridgeFit`;
`p = X[0].length`, `XT[i] = X.map(row => row[i])`. -/
def gramSystem (X : List (List ℚ)) (y : List ℚ) (lambda : ℚ) (p : Nat) :
    List (List ℚ) × List ℚ :=
  let XT := (natsFrom 0 p).map (fun i => X.map (fun row => row.getD i 0))
  ((natsFrom 0 p).map (fun i =>
      (natsFrom 0 p).map (fun j =>
        dot (XT.getD i []) (XT.getD j []) + (if i = j then lambda else 0))),
   (natsFrom 0 p).map (fun i => dot (XT.getD i []) y))

/-- The residuals `y_i - X_i·beta` and the intercept
`residuals.reduce((s,v)=>s+v,0) / residuals.length`. -/
def interceptOf (X : List (List ℚ)) (y : List ℚ) (beta : List ℚ) : ℚ :=
  let residuals := List.zipWith (fun yi pi => yi - pi) y
    (X.map (fun row => dot row beta))
  residuals.sum / (residuals.length : ℚ)

/-- `ridgeFit(X, y, lambda)` from scripts/train_model.ts: builds
`XᵀX + λI` and `Xᵀy`, solves by Gauss–Jordan elimination with partial
pivoting and the `|| 1e-12` pivot fallback, and sets the intercept to the
mean residual.  Throws (`Except.error`) only on an empty design matrix. -/
def ridgeFit (X : List (List ℚ)) (y : List ℚ) (lambda : ℚ) :
    Except String (List ℚ × ℚ) :=
  if X.length = 0 then .error "Empty design matrix" else
    let p := (X.getD 0 []).length
    let Ab := gramSystem X y lambda p
    let beta := ((natsFrom 0 p).foldl (gjStep p) Ab).2
    .ok (beta, interceptOf X y beta)

/-- The spec's residual-mean quantity: the mean over the training rows of
`y_i − (X_i·beta + intercept)`. -/
def meanCenteredResidual (X : List (List ℚ)) (y beta : List ℚ) (c : ℚ) : ℚ :=
  let rs := List.zipWith (fun yi pi => yi - pi) y
    (X.map (fun row => dot row beta + c))
  rs.sum / (rs.length : ℚ)

/-- The pivot rule as the spec's §4.1 words describe it: the pivot is
replaced by `1e-12` whenever its magnitude is below `1e-12` (not only
when it is exactly 0).  Used solely to compare against the source. -/
def pivotClampSpec (x : ℚ) : ℚ := if |x| < 1 / 10 ^ 12 then 1 / 10 ^ 12 else x

/-- `ridgeFit` with the spec-worded pivot rule, for comparison. -/
def ridgeFitSpecClamp (X : List (List ℚ)) (y : List ℚ) (lambda : ℚ) :
    Except String (List ℚ × ℚ) :=
  if X.length = 0 then .error "Empty design matrix" else
    let p := (X.getD 0 []).length
    let Ab := gramSystem X y lambda p
    let beta := ((natsFrom 0 p).foldl (gjStepWith pivotClampSpec p) Ab).2
    .ok (beta, interceptOf X y beta)

/-- The 12 feature column names of `FEATURE_NAMES`, in training order. -/
def FEATURE_NAMES : List String :=
  ["session_avg_sec", "idle_ratio", "app_switch_count", "work_notif_count",
   "personal_notif_count", "avg_notif_sentiment", "hours_slept", "steps",
   "hrv", "time_at_work_ratio", "location_switches", "commute_min"]

/-- One `daily_features` row as the trainer sees it: the feature values
in `FEATURE_NAMES` order (nullable) and the nullable mood label. -/
structure TrainRow where
  features : List (Option ℚ)
  mood_label : Option ℚ
deriving DecidableEq

/-- The two failure modes of the row-selection phase of `main`. -/
inductive TrainError where
  | noLabeledRows
  | insufficientTrainingData
deriving DecidableEq

/-- The query filter `.not("mood_label", "is", null)`. -/
def labeledRows (rows : List TrainRow) : List TrainRow :=
  rows.filter (fun r => r.mood_label.isSome)

/-- `rows.filter(r => FEATURE_NAMES.every(f => r[f] !== null && r[f] !==
undefined))`. -/
def cleanRows (rows : List TrainRow) : List TrainRow :=
  rows.filter (fun r => r.features.all Option.isSome)

/-- The row-selection phase of `main`: keep labeled rows, throw
`"No labeled daily_features rows found."` when there are none, filter to
complete rows, throw `"Not enough complete rows to train."` when fewer
than 2 remain. -/
def selectTraining (rows : List TrainRow) :
    Except TrainError (List TrainRow) :=
  let labeled := labeledRows rows
  if labeled.length = 0 then .error .noLabeledRows
  else
    let clean := cleanRows labeled
    if clean.length < 2 then .error .insufficientTrainingData
    else .ok clean

/-- `abs = beta.map(Math.abs); norm = abs.reduce((s,v)=>s+v,0) || 1;
importance_i = abs[i] / norm`. -/
def importances (beta : List ℚ) : List ℚ :=
  let absList := beta.map (fun b => |b|)
  let norm := if absList.sum = 0 then 1 else absList.sum
  absList.map (fun a => a / norm)

/-- `Math.round(x)`: round half toward positive infinity. -/
def jsRound (q : ℚ) : ℤ := ⌊q + 1 / 2⌋

/-- `Number(x.toFixed(2))`: round to 2 decimal places, picking the larger
candidate on a tie. -/
def roundTo2 (q : ℚ) : ℚ := (jsRound (q * 100) : ℚ) / 100

/-- One element of `predRows` in `main`, keeping the model-derived
fields: `y_true = r.mood_label ?? null` and
`y_pred = Number((intercept + Σ coef_j·x_j).toFixed(2))` where
`xx = FEATURE_NAMES.map(f => Number(r[f] ?? 0))`. -/
structure Prediction where
  y_true : Option ℚ
  y_pred : ℚ
deriving DecidableEq

/-- The scoring of one `daily_features` row by the trained model, with
every missing feature read as 0 (`Number(r[f] ?? 0)`). -/
def predRow (beta : List ℚ) (intercept : ℚ) (r : TrainRow) : Prediction :=
  { y_true := r.mood_label,
    y_pred := roundTo2 (intercept + dot (r.features.map (fun o => o.getD 0)) beta) }

/-- The same row with every missing feature replaced by an explicit 0:
used to state that prediction treats absent features as zeros. -/
def zeroFill (r : TrainRow) : TrainRow :=
  { features := r.features.map (fun o => some (o.getD 0)),
    mood_label := r.mood_label }

/-- `String(n).padStart(2, "0")`. -/
def pad2 (n : Nat) : String :=
  let s := toString n
  if s.length < 2 then "0" ++ s else s

/-- The proleptic-Gregorian decomposition of a day number (days since
1970-01-01 UTC) into (year, month 1–12, day 1–31), as JavaScript `Date`'s
UTC getters expose it. -/
def civilFromDays (z0 : Int) : Int × Int × Int :=
  let z := z0 + 719468
  let era := Int.fdiv z 146097
  let doe := z - era * 146097
  let yoe := Int.fdiv (doe - Int.fdiv doe 1460 + Int.fdiv doe 36524 -
    Int.fdiv doe 146096) 365
  let y := yoe + era * 400
  let doy := doe - (365 * yoe + Int.fdiv yoe 4 - Int.fdiv yoe 100)
  let mp := Int.fdiv (5 * doy + 2) 153
  let d := doy - Int.fdiv (153 * mp + 2) 5 + 1
  let m := mp + (if mp < 10 then 3 else -9)
  (y + (if m ≤ 2 then 1 else 0), m, d)

/-- `nowVersion()` from scripts/train_model.ts, as a function of the
clock reading in epoch milliseconds: `v` + UTC year + padded month, day,
`-`, padded hours, minutes, seconds.  Milliseconds are discarded: every
component is derived from the epoch time truncated to whole seconds. -/
def nowVersion (ms : Int) : String :=
  let sec := Int.fdiv ms 1000
  let days := Int.fdiv sec 86400
  let sod := (sec - days * 86400).toNat
  let ymd := civilFromDays days
  "v" ++ toString ymd.1 ++ pad2 ymd.2.1.toNat ++ pad2 ymd.2.2.toNat ++ "-" ++
    pad2 (sod / 3600) ++ pad2 (sod % 3600 / 60) ++ pad2 (sod % 60)

/-- One `system_events` row, with the columns `aggregateUserDay` reads.
Every column is nullable. -/
structure SystemEvent where
  event_type : String
  duration_sec : Option ℚ
  location_category : Option String
  action_after : Option String
  notification_sender_type : Option String
  message_sentiment : Option ℚ
  mood_rating : Option ℚ
deriving DecidableEq

/-- The aggregated `DailyFeature` record (numeric fields only; the two
ratio-valued columns keep the source's meaning under adjusted names,
`idle_ratio` as `idle_frac` and `time_at_work_ratio` as
`time_at_work_frac`). -/
structure DailyFeature where
  session_avg_sec : Option ℚ
  idle_frac : Option ℚ
  app_switch_count : Option ℚ
  work_notif_count : Option ℚ
  personal_notif_count : Option ℚ
  avg_notif_sentiment : Option ℚ
  hours_slept : Option ℚ
  steps : Option ℚ
  hrv : Option ℚ
  time_at_work_frac : Option ℚ
  location_switches : Option ℚ
  commute_min : Option ℚ
  mood_label : Option ℚ
deriving DecidableEq

/-- `x || null` for a number `x`: exactly 0 collapses to null. -/
def falsyToNone (q : ℚ) : Option ℚ := if q = 0 then none else some q

/-- `x?.field || null`: null stays null and exactly 0 collapses to null. -/
def optFalsy (o : Option ℚ) : Option ℚ :=
  match o with
  | none => none
  | some v => if v = 0 then none else some v

/-- Whether `p` occurs at the very start of `s`. -/
def isRunStart : List Char → List Char → Bool
  | [], _ => true
  | _ :: _, [] => false
  | a :: as, b :: bs => a == b && isRunStart as bs

/-- Whether `p` occurs as a contiguous run anywhere in `s` (the
character-list form of `String.prototype.includes`). -/
def hasRun (p : List Char) : List Char → Bool
  | [] => p.isEmpty
  | c :: t => isRunStart p (c :: t) || hasRun p t

/-- `(s || '').toLowerCase().includes('switch')`. -/
def lowerContainsSwitch (s : String) : Bool :=
  hasRun ("switch".data) (s.data.map Char.toLower)

/-- `events.filter(e => e.event_type === "app_usage")`. -/
def appUsageEvents (events : List SystemEvent) : List SystemEvent :=
  events.filter (fun e => e.event_type == "app_usage")

/-- `events.filter(e => e.event_type === "notification")`. -/
def notificationEvents (events : List SystemEvent) : List SystemEvent :=
  events.filter (fun e => e.event_type == "notification")

/-- `events.filter(e => e.event_type === "location")`. -/
def locationTypeEvents (events : List SystemEvent) : List SystemEvent :=
  events.filter (fun e => e.event_type == "location")

/-- `events.filter(e => e.event_type === "activity")`. -/
def activityTypeEvents (events : List SystemEvent) : List SystemEvent :=
  events.filter (fun e => e.event_type == "activity")

/-- `events.filter(e => e.event_type === "mood_log")`. -/
def moodLogEvents (events : List SystemEvent) : List SystemEvent :=
  events.filter (fun e => e.event_type == "mood_log")

/-- The computed app-switch count before falsy collapse:
`appEvents.filter(e => (e.action_after||'').toLowerCase()
.includes('switch')).length`. -/
def appSwitchCountVal (events : List SystemEvent) : Nat :=
  ((appUsageEvents events).filter
    (fun e => lowerContainsSwitch (e.action_after.getD ""))).length

/-- `notifEvents.filter(e => e.notification_sender_type === 'work')
.length`. -/
def workNotifCountVal (events : List SystemEvent) : Nat :=
  ((notificationEvents events).filter
    (fun e => e.notification_sender_type == some "work")).length

/-- `notifEvents.filter(e => e.notification_sender_type === 'personal')
.length`. -/
def personalNotifCountVal (events : List SystemEvent) : Nat :=
  ((notificationEvents events).filter
    (fun e => e.notification_sender_type == some "personal")).length

/-- `Math.max(0, locationEvents.length - 1)` (truncated subtraction). -/
def locationSwitchesVal (events : List SystemEvent) : Nat :=
  (locationTypeEvents events).length - 1

/-- `Math.round(commuteDurationSum / 60)` over commute-tagged location
events. -/
def commuteMinVal (events : List SystemEvent) : ℤ :=
  jsRound ((((locationTypeEvents events).filter
    (fun e => e.location_category == some "commute")).map
      (fun e => e.duration_sec.getD 0)).sum / 60)

/-- A sample day of activity events: a sleep_summary with duration 0, a
steps event storing 0 and an hrv event storing sentiment 0. -/
def zeroBiometricDay : List SystemEvent :=
  [⟨"activity", some 0, none, some "sleep_summary", none, none, none⟩,
   ⟨"activity", some 0, none, some "steps", none, none, none⟩,
   ⟨"activity", none, none, some "hrv", none, some 0, none⟩]

/-- `aggregateUserDay` from src/hooks/useCalendarTracking.ts, as a pure
function of the day's fetched events. -/
def aggregateUserDay (events : List SystemEvent) : DailyFeature :=
  let appEvents := appUsageEvents events
  let notifEvents := notificationEvents events
  let locEvents := locationTypeEvents events
  let actEvents := activityTypeEvents events
  let moodLogs := moodLogEvents events
  let idleDur := ((actEvents.filter (fun e => e.action_after == some "idle")).map
    (fun e => e.duration_sec.getD 0)).sum
  let totalDur := (appEvents.map (fun e => e.duration_sec.getD 0)).sum + idleDur
  let locTotal := (locEvents.map (fun e => e.duration_sec.getD 0)).sum
  let locAtWork := ((locEvents.filter
    (fun e => e.location_category.getD "" == "work")).map
      (fun e => e.duration_sec.getD 0)).sum
  { session_avg_sec :=
      if appEvents.length = 0 then none
      else some ((jsRound ((appEvents.map (fun e => e.duration_sec.getD 0)).sum
        / (appEvents.length : ℚ)) : ℚ)),
    idle_frac := if 0 < totalDur then some (idleDur / totalDur) else none,
    app_switch_count := falsyToNone ((appSwitchCountVal events : ℚ)),
    work_notif_count := falsyToNone ((workNotifCountVal events : ℚ)),
    personal_notif_count := falsyToNone ((personalNotifCountVal events : ℚ)),
    avg_notif_sentiment :=
      if notifEvents.length = 0 then none
      else some ((notifEvents.map (fun e => e.message_sentiment.getD 0)).sum
        / (notifEvents.length : ℚ)),
    hours_slept :=
      (optFalsy ((actEvents.find?
        (fun e => e.action_after == some "sleep_summary")).bind
          (fun e => e.duration_sec))).map (fun d => roundTo2 (d / 3600)),
    steps := optFalsy ((actEvents.find?
      (fun e => e.action_after == some "steps")).bind
        (fun e => e.duration_sec)),
    hrv := optFalsy ((actEvents.find?
      (fun e => e.action_after == some "hrv")).bind
        (fun e => e.message_sentiment)),
    time_at_work_frac :=
      if locTotal = 0 then none else some (locAtWork / locTotal),
    location_switches := falsyToNone ((locationSwitchesVal events : ℚ)),
    commute_min := falsyToNone ((commuteMinVal events : ℚ)),
    mood_label :=
      if moodLogs.length = 0 then none
      else some ((jsRound ((moodLogs.map (fun e => e.mood_rating.getD 0)).sum
        / (moodLogs.length : ℚ)) : ℚ)) }

end TrainModel

open TrainModel

namespace TrainModel

theorem natsFrom_length (n : Nat) : ∀ s, (natsFrom s n).length = n := by
  induction n with
  | zero => intro s; rfl
  | succ n ih => intro s; simp [natsFrom, ih]

theorem foldl_preserve {α β : Type} {P : β → Prop} {f : β → α → β}
    (h : ∀ b a, P b → P (f b a)) :
    ∀ (l : List α) (b : β), P b → P (l.foldl f b) := by
  intro l
  induction l with
  | nil => intro b hb; exact hb
  | cons a t ih => intro b hb; exact ih _ (h b a hb)

theorem swapList_length (l : List ℚ) (i j : Nat) :
    (swapList l i j).length = l.length := by
  simp [swapList]

theorem elimRow_snd_length (i : Nat) (st : List (List ℚ) × List ℚ)
    (r : Nat) : (elimRow i st r).2.length = st.2.length := by
  unfold elimRow
  split <;> simp

theorem gjStepWith_snd_length (piv : ℚ → ℚ) (p : Nat)
    (st : List (List ℚ) × List ℚ) (i : Nat) :
    (gjStepWith piv p st i).2.length = st.2.length := by
  unfold gjStepWith
  have h := foldl_preserve
    (P := fun st' : List (List ℚ) × List ℚ => st'.2.length = st.2.length)
    (f := elimRow i)
    (fun b a hb => by
      show (elimRow i b a).2.length = st.2.length
      rw [elimRow_snd_length]; exact hb)
    (natsFrom 0 p)
  apply h
  simp [swapList_length]

theorem gauss_snd_length (p : Nat) (Ab : List (List ℚ) × List ℚ) :
    ((natsFrom 0 p).foldl (gjStep p) Ab).2.length = Ab.2.length := by
  have h := foldl_preserve
    (P := fun st' : List (List ℚ) × List ℚ => st'.2.length = Ab.2.length)
    (f := gjStep p)
    (fun b a hb => by
      show (gjStepWith pivotClamp p b a).2.length = Ab.2.length
      rw [gjStepWith_snd_length]; exact hb)
    (natsFrom 0 p)
  exact h Ab rfl

theorem gramSystem_snd_length (X : List (List ℚ)) (y : List ℚ) (lam : ℚ)
    (p : Nat) : (gramSystem X y lam p).2.length = p := by
  simp [gramSystem, natsFrom_length]

theorem zipWith_sub_map_add (c : ℚ) :
    ∀ (y l : List ℚ),
      List.zipWith (fun a b => a - b) y (l.map (fun x => x + c)) =
        (List.zipWith (fun a b => a - b) y l).map (fun x => x - c) := by
  intro y
  induction y with
  | nil => intro l; simp
  | cons a t ih =>
    intro l
    cases l with
    | nil => simp
    | cons b u => simp [ih u]; ring

theorem sum_map_sub_const (c : ℚ) :
    ∀ l : List ℚ, (l.map (fun x => x - c)).sum = l.sum - l.length * c := by
  intro l
  induction l with
  | nil => simp
  | cons a t ih => simp [ih]; ring

theorem interceptOf_mean_residual_zero (X : List (List ℚ)) (y beta : List ℚ)
    (hX : X ≠ []) (hy : y.length = X.length) :
    meanCenteredResidual X y beta (interceptOf X y beta) = 0 := by
  simp only [meanCenteredResidual, interceptOf]
  set c := (List.zipWith (fun yi pi => yi - pi) y
      (X.map fun row => dot row beta)).sum /
    ((List.zipWith (fun yi pi => yi - pi) y
      (X.map fun row => dot row beta)).length : ℚ) with hc
  have hmap : X.map (fun row => dot row beta + c) =
      (X.map (fun row => dot row beta)).map (fun x => x + c) := by
    rw [List.map_map]; rfl
  rw [hmap, zipWith_sub_map_add, sum_map_sub_const, List.length_map]
  set rs := List.zipWith (fun yi pi => yi - pi) y
    (X.map fun row => dot row beta) with hrs
  have hlen : rs.length = X.length := by
    rw [hrs, List.length_zipWith, List.length_map, hy, Nat.min_self]
  have hn : (rs.length : ℚ) ≠ 0 := by
    rw [hlen]
    exact_mod_cast fun h => hX (List.length_eq_zero.mp h)
  rw [hc]
  field_simp

end TrainModel

/-- C1: on `X = [[1],[2],[3],[4]]`, `y = [2,4,6,8]`, `λ = 0`, `ridgeFit`
returns exactly `beta = [2]` and `intercept = 0`, hence within `1e-6`
of 2.0 and 0.0. -/
theorem C1_ridgeFit_example :
    ridgeFit [[1], [2], [3], [4]] [2, 4, 6, 8] 0 = .ok ([2], 0) ∧
      |(2 : ℚ) - 2| ≤ 1 / 10 ^ 6 ∧ |(0 : ℚ) - 0| ≤ 1 / 10 ^ 6 := by
  refine ⟨?_, by norm_num, by norm_num⟩
  simp [ridgeFit, gramSystem, gjStep, gjStepWith, argmaxRow, swapRows,
    swapList, pivotClamp, divRowFrom, subRowFrom, elimRow, getEntry, dot,
    natsFrom, mapWithIndex, interceptOf]
  norm_num

/-- C2: for every `n ≥ 2`, `p ≥ 1`, `λ ≥ 0` and every `n×p` design matrix
`X` with label vector `y` (rank-deficient systems included), `ridgeFit`
does not throw: it returns a coefficient vector of length exactly `p`
and a scalar intercept.  (In exact arithmetic no NaN can arise; the
pivot fallback keeps every divisor nonzero.) -/
theorem C2_ridgeFit_total (X : List (List ℚ)) (y : List ℚ) (lam : ℚ)
    (p : Nat) (hn : 2 ≤ X.length) (hp : 1 ≤ p)
    (hrows : ∀ row ∈ X, row.length = p) (hy : y.length = X.length)
    (hlam : 0 ≤ lam) :
    ∃ beta c, ridgeFit X y lam = Except.ok (beta, c) ∧ beta.length = p := by
  have hne : X.length ≠ 0 := by omega
  obtain ⟨x0, t, rfl⟩ : ∃ x0 t, X = x0 :: t := by
    cases X with
    | nil => simp at hne
    | cons a t => exact ⟨a, t, rfl⟩
  have hx0 : x0.length = p := hrows x0 (by simp)
  simp only [ridgeFit, if_neg hne]
  refine ⟨_, _, rfl, ?_⟩
  rw [gauss_snd_length, gramSystem_snd_length]
  simpa using hx0

/-- C2 witness: at the concrete rank-deficient input
`X = [[1,1],[1,1]]`, `y = [1,2]`, `λ = 0`, the solver returns a
length-2 coefficient vector. -/
theorem C2_ridgeFit_total_witness :
    ∃ beta c, ridgeFit [[1, 1], [1, 1]] [1, 2] 0 = Except.ok (beta, c) ∧
      beta.length = 2 :=
  C2_ridgeFit_total [[1, 1], [1, 1]] [1, 2] 0 2 (by norm_num) (by norm_num)
    (by intro row hrow; simp at hrow; simp [hrow])
    (by norm_num) (by norm_num)

/-- C4: the intercept returned by `ridgeFit` is the mean residual
`mean(y_i - X_i·beta)`, so for every input on which the solver returns,
the mean of `y - (X·beta + intercept)` over the training rows is exactly
0 (hence within `1e-6`). -/
theorem C4_residual_mean_zero (X : List (List ℚ)) (y : List ℚ) (lam : ℚ)
    (beta : List ℚ) (c : ℚ) (h : ridgeFit X y lam = Except.ok (beta, c))
    (hy : y.length = X.length) (hX : X ≠ []) :
    c = interceptOf X y beta ∧ meanCenteredResidual X y beta c = 0 := by
  have hne : X.length ≠ 0 := fun h0 => hX (List.length_eq_zero.mp h0)
  simp only [ridgeFit, if_neg hne, Except.ok.injEq, Prod.mk.injEq] at h
  obtain ⟨hb, hc⟩ := h
  subst hb
  subst hc
  exact ⟨rfl, interceptOf_mean_residual_zero X y _ hX hy⟩

/-- C4 witness: at `X = [[1],[2],[3],[4]]`, `y = [2,4,6,8]`, `λ = 1`
(the pipeline's ridge penalty), the returned intercept is the mean
residual and the centered residuals have mean exactly 0. -/
theorem C4_residual_mean_zero_witness :
    ∃ beta c, ridgeFit [[1], [2], [3], [4]] [2, 4, 6, 8] 1 =
        Except.ok (beta, c) ∧
      meanCenteredResidual [[1], [2], [3], [4]] [2, 4, 6, 8] beta c = 0 := by
  have h : ridgeFit [[1], [2], [3], [4]] [2, 4, 6, 8] 1 =
      Except.ok ([60 / 31], [2, 4, 6, 8].sum / 4 - (60 / 31) * 10 / 4) := by
    simp [ridgeFit, gramSystem, gjStep, gjStepWith, argmaxRow, swapRows,
      swapList, pivotClamp, divRowFrom, subRowFrom, elimRow, getEntry, dot,
      natsFrom, mapWithIndex, interceptOf]
    norm_num
  refine ⟨_, _, h, ?_⟩
  exact (C4_residual_mean_zero [[1], [2], [3], [4]] [2, 4, 6, 8] 1 _ _ h
    (by norm_num) (by simp)).2

/-- C3 counterexample: at `X = [[1e-7]]`, `y = [1]`, `λ = 0` the selected
pivot is `1e-14`, whose magnitude is below `1e-12` but which is nonzero;
the source divides by `1e-14` itself (giving `beta = [1e7]`), not by the
substituted `1e-12` the claim describes (which would give
`beta = [1e5]`, intercept `99/100`). -/
theorem C3_pivot_clamp_counterexample :
    ridgeFit [[1 / 10 ^ 7]] [1] 0 = Except.ok ([10 ^ 7], 0) ∧
      ridgeFitSpecClamp [[1 / 10 ^ 7]] [1] 0 =
        Except.ok ([10 ^ 5], 99 / 100) ∧
      ridgeFit [[1 / 10 ^ 7]] [1] 0 ≠
        ridgeFitSpecClamp [[1 / 10 ^ 7]] [1] 0 := by
  have h1 : ridgeFit [[1 / 10 ^ 7]] [1] 0 = Except.ok ([10 ^ 7], 0) := by
    simp [ridgeFit, gramSystem, gjStep, gjStepWith, argmaxRow, swapRows,
      swapList, pivotClamp, divRowFrom, subRowFrom, elimRow, getEntry, dot,
      natsFrom, mapWithIndex, interceptOf]
  have h2 : ridgeFitSpecClamp [[1 / 10 ^ 7]] [1] 0 =
      Except.ok ([10 ^ 5], 99 / 100) := by
    simp [ridgeFitSpecClamp, gramSystem, gjStepWith, argmaxRow, swapRows,
      swapList, pivotClampSpec, abs_lt, divRowFrom, subRowFrom, elimRow,
      getEntry, dot, natsFrom, mapWithIndex, interceptOf]
    norm_num
  refine ⟨h1, h2, ?_⟩
  rw [h1, h2]
  simp

/-- C3 amended: the fallback `1e-12` is substituted only when the
selected pivot is exactly 0 (JavaScript `||` on a falsy value); any
nonzero pivot — however small in magnitude — is divided by as-is, so for
every `ε ≠ 0` the one-dimensional system with Gram entry `ε²` yields
`beta = [1/ε]` rather than a clamped quotient. -/
theorem C3_pivot_clamp_amended (ε : ℚ) (hε : ε ≠ 0) :
    ridgeFit [[ε]] [1] 0 = Except.ok ([ε⁻¹], 0) := by
  have h2 : ε * ε ≠ 0 := mul_ne_zero hε hε
  simp [ridgeFit, gramSystem, gjStep, gjStepWith, argmaxRow, swapRows,
    swapList, pivotClamp, divRowFrom, subRowFrom, elimRow, getEntry, dot,
    natsFrom, mapWithIndex, interceptOf, h2]
  field_simp

/-- C3 amended witness: at `ε = 1e-7` (pivot `1e-14`, below the claimed
threshold but nonzero) the solver returns `beta = [1e7] = [1/ε]`. -/
theorem C3_pivot_clamp_amended_witness :
    ridgeFit [[1 / 10 ^ 7]] [1] 0 = Except.ok ([((1 : ℚ) / 10 ^ 7)⁻¹], 0) :=
  C3_pivot_clamp_amended (1 / 10 ^ 7) (by norm_num)

namespace TrainModel

theorem sum_map_div (c : ℚ) :
    ∀ l : List ℚ, (l.map (fun x => x / c)).sum = l.sum / c := by
  intro l
  induction l with
  | nil => simp
  | cons a t ih => simp [ih]; ring

theorem abs_sum_nonneg (l : List ℚ) : 0 ≤ (l.map (fun b => |b|)).sum := by
  induction l with
  | nil => simp
  | cons a t ih => simp; positivity

end TrainModel

/-- C5 counterexample: with an empty input row set there remain 0 < 2
complete rows after the filter, yet `main` fails with the earlier
`"No labeled daily_features rows found."` error, not with
`InsufficientTrainingData` — so the stated "if and only if" fails. -/
theorem C5_filter_counterexample :
    selectTraining [] = Except.error TrainError.noLabeledRows ∧
      (cleanRows (labeledRows ([] : List TrainRow))).length < 2 ∧
      TrainError.noLabeledRows ≠ TrainError.insufficientTrainingData := by
  refine ⟨by simp [selectTraining, labeledRows], ?_, by simp⟩
  simp [cleanRows, labeledRows]

/-- C5 amended: provided at least one labeled row was fetched, training
fails with `InsufficientTrainingData` iff fewer than 2 complete rows
remain, and the surviving rows are exactly those with the label and all
features non-null (a row missing even one feature is dropped). -/
theorem C5_filter_amended (rows : List TrainRow)
    (h : labeledRows rows ≠ []) :
    (selectTraining rows = Except.error TrainError.insufficientTrainingData
        ↔ (cleanRows (labeledRows rows)).length < 2) ∧
      cleanRows (labeledRows rows) = rows.filter
        (fun r => r.mood_label.isSome && r.features.all Option.isSome) := by
  constructor
  · have hl : ¬((labeledRows rows).length = 0) := by
      simpa [List.length_eq_zero] using h
    unfold selectTraining
    rw [if_neg hl]
    by_cases h2 : (cleanRows (labeledRows rows)).length < 2
    · simp [h2]
    · simp [h2]
  · unfold cleanRows labeledRows
    rw [List.filter_filter]
    congr 1
    funext a
    rw [Bool.and_comm]

/-- C5 amended witness: one labeled row whose 12 features are all null is
dropped by the filter, and training fails with
`InsufficientTrainingData`. -/
theorem C5_filter_amended_witness :
    (selectTraining [⟨List.replicate 12 none, some 3⟩] =
        Except.error TrainError.insufficientTrainingData
        ↔ (cleanRows (labeledRows
            [⟨List.replicate 12 none, some 3⟩])).length < 2) ∧
      cleanRows (labeledRows [⟨List.replicate 12 none, some 3⟩]) =
        [⟨List.replicate 12 none, some 3⟩].filter
          (fun r => r.mood_label.isSome && r.features.all Option.isSome) :=
  C5_filter_amended [⟨List.replicate 12 none, some 3⟩]
    (by simp [labeledRows])

/-- C6: a row with a missing feature is dropped from training entirely
(`cleanRows` removes it), yet the very same row is still scored: its
prediction equals the prediction of the zero-filled row, with
`y_true = mood_label ?? null` and
`y_pred = round(intercept + Σ coef_i·feature_i, 2)` over the
zero-defaulted features. -/
theorem C6_train_predict_asymmetry (beta : List ℚ) (c : ℚ) (r : TrainRow)
    (hmiss : none ∈ r.features) :
    cleanRows [r] = [] ∧
      predRow beta c r = predRow beta c (zeroFill r) ∧
      (predRow beta c r).y_true = r.mood_label ∧
      (predRow beta c r).y_pred =
        roundTo2 (c + dot (r.features.map (fun o => o.getD 0)) beta) := by
  refine ⟨?_, ?_, rfl, rfl⟩
  · have hall : r.features.all Option.isSome = false := by
      rw [List.all_eq_false]
      exact ⟨none, hmiss, by simp⟩
    simp [cleanRows, List.filter, hall]
  · unfold predRow zeroFill
    simp [List.map_map, Function.comp_def]

/-- C6 witness: a 12-feature row whose first feature is null is excluded
from training but still scored, identically to its zero-filled copy. -/
theorem C6_train_predict_asymmetry_witness :
    cleanRows [⟨none :: List.replicate 11 (some 1), some 4⟩] = [] ∧
      predRow (List.replicate 12 1) 0
          ⟨none :: List.replicate 11 (some 1), some 4⟩ =
        predRow (List.replicate 12 1) 0
          (zeroFill ⟨none :: List.replicate 11 (some 1), some 4⟩) ∧
      (predRow (List.replicate 12 1) 0
          ⟨none :: List.replicate 11 (some 1), some 4⟩).y_true = some 4 ∧
      (predRow (List.replicate 12 1) 0
          ⟨none :: List.replicate 11 (some 1), some 4⟩).y_pred =
        roundTo2 (0 + dot ((none :: List.replicate 11 (some (1:ℚ))).map
          (fun o => o.getD 0)) (List.replicate 12 1)) :=
  C6_train_predict_asymmetry (List.replicate 12 1) 0
    ⟨none :: List.replicate 11 (some 1), some 4⟩ (by simp)

/-- C8: each importance is `|coef_i|` over `Σ|coef_j|` with the
denominator floored to 1 when that sum is 0; every importance lies in
`[0,1]` (never NaN in exact arithmetic), the importances sum to exactly 1
whenever some coefficient is nonzero, and to 0 when all coefficients are
zero. -/
theorem C8_importances_properties (beta : List ℚ) :
    (importances beta).length = beta.length ∧
      (∀ x ∈ importances beta, 0 ≤ x ∧ x ≤ 1) ∧
      ((∃ b ∈ beta, b ≠ 0) → (importances beta).sum = 1) ∧
      ((∀ b ∈ beta, b = 0) → (importances beta).sum = 0) := by
  have habs : ∀ a ∈ beta.map (fun b => |b|), 0 ≤ a := by
    intro a ha
    obtain ⟨b, _, rfl⟩ := List.mem_map.mp ha
    positivity
  have hS0 : 0 ≤ (beta.map (fun b => |b|)).sum := List.sum_nonneg habs
  by_cases hz : (beta.map (fun b => |b|)).sum = 0
  · have hall : ∀ a ∈ beta.map (fun b => |b|), a = 0 := fun a ha =>
      List.all_zero_of_le_zero_le_of_sum_eq_zero habs hz ha
    refine ⟨by simp [importances], ?_, ?_, ?_⟩
    · intro x hx
      simp only [importances, hz, if_pos] at hx
      obtain ⟨a, ha, rfl⟩ := List.mem_map.mp hx
      rw [hall a ha]
      norm_num
    · rintro ⟨b, hb, hbne⟩
      exfalso
      exact hbne (by simpa using hall |b| (List.mem_map.mpr ⟨b, hb, rfl⟩))
    · intro _
      simp only [importances, hz, if_pos]
      rw [sum_map_div, hz]
      norm_num
  · refine ⟨by simp [importances], ?_, ?_, ?_⟩
    · intro x hx
      simp only [importances, hz, if_neg, ite_false] at hx
      obtain ⟨a, ha, rfl⟩ := List.mem_map.mp hx
      have ha0 : 0 ≤ a := habs a ha
      have haS : a ≤ (beta.map (fun b => |b|)).sum :=
        List.single_le_sum habs a ha
      have hpos : 0 < (beta.map (fun b => |b|)).sum :=
        lt_of_le_of_ne hS0 (Ne.symm hz)
      constructor
      · positivity
      · rw [div_le_one hpos]
        exact haS
    · intro _
      simp only [importances, hz, if_neg, ite_false]
      rw [sum_map_div]
      field_simp
    · intro hallz
      exfalso
      apply hz
      have : beta.map (fun b => |b|) = beta.map (fun _ => 0) := by
        apply List.map_congr_left
        intro b hb
        rw [hallz b hb]
        simp
      rw [this]
      simp

/-- C8 witness: for `beta = [2, 0]` the importances sum to exactly 1 and
for `beta = [0, 0]` they sum to 0. -/
theorem C8_importances_properties_witness :
    (importances [2, 0]).sum = 1 ∧ (importances [0, 0]).sum = 0 :=
  ⟨(C8_importances_properties [2, 0]).2.2.1 ⟨2, by simp, by norm_num⟩,
   (C8_importances_properties [0, 0]).2.2.2
     (by intro b hb; simpa using hb)⟩

/-- C9: the assigned model version is a pure function of the UTC clock
reading truncated to whole seconds, in the format `vYYYYMMDD-HHMMSS`
(sample values verified at the epoch and at 2026-01-01T01:02:03Z); hence
any two training runs whose clock readings fall in the same UTC second
produce the identical version string. -/
theorem C9_version_same_second (t1 t2 : Int)
    (h : Int.fdiv t1 1000 = Int.fdiv t2 1000) :
    nowVersion t1 = nowVersion t2 ∧
      nowVersion 0 = "v19700101-000000" ∧
      nowVersion 1767229323000 = "v20260101-010203" := by
  refine ⟨?_, by decide, by decide⟩
  unfold nowVersion
  rw [h]

/-- C9 witness: the readings 1500 ms and 1999 ms both fall in UTC second
1 and receive the same version string. -/
theorem C9_version_same_second_witness :
    nowVersion 1500 = nowVersion 1999 :=
  (C9_version_same_second 1500 1999 (by decide)).1

/-- C7: each of the five count-type features is stored as null whenever
its computed value is exactly 0 (the `|| null` falsy collapse), so a
zero count is indistinguishable from an absent one in the stored
`DailyFeature`. -/
theorem C7_count_zero_collapse (events : List SystemEvent) :
    (appSwitchCountVal events = 0 →
        (aggregateUserDay events).app_switch_count = none) ∧
      (workNotifCountVal events = 0 →
        (aggregateUserDay events).work_notif_count = none) ∧
      (personalNotifCountVal events = 0 →
        (aggregateUserDay events).personal_notif_count = none) ∧
      (locationSwitchesVal events = 0 →
        (aggregateUserDay events).location_switches = none) ∧
      (commuteMinVal events = 0 →
        (aggregateUserDay events).commute_min = none) := by
  refine ⟨?_, ?_, ?_, ?_, ?_⟩ <;> intro h <;>
    simp [aggregateUserDay, falsyToNone, h]

/-- C7 witness: on the empty event set all five computed counts are 0 and
all five stored features are null. -/
theorem C7_count_zero_collapse_witness :
    (aggregateUserDay []).app_switch_count = none ∧
      (aggregateUserDay []).work_notif_count = none ∧
      (aggregateUserDay []).personal_notif_count = none ∧
      (aggregateUserDay []).location_switches = none ∧
      (aggregateUserDay []).commute_min = none :=
  ⟨(C7_count_zero_collapse []).1 rfl,
   (C7_count_zero_collapse []).2.1 rfl,
   (C7_count_zero_collapse []).2.2.1 rfl,
   (C7_count_zero_collapse []).2.2.2.1 rfl,
   (C7_count_zero_collapse []).2.2.2.2
     (by norm_num [commuteMinVal, locationTypeEvents, jsRound])⟩

/-- C10: the falsy collapse also hits the biometric features:
`hours_slept` is null when no sleep_summary activity event exists or when
the first one carries duration 0; `steps` is null when the first steps
event stores 0; `hrv` is null when the first hrv event stores sentiment
0 — so a recorded zero is indistinguishable from absence for these too. -/
theorem C10_biometric_zero_collapse (events : List SystemEvent) :
    ((activityTypeEvents events).find?
        (fun e => e.action_after == some "sleep_summary") = none →
      (aggregateUserDay events).hours_slept = none) ∧
    (∀ e, (activityTypeEvents events).find?
        (fun e => e.action_after == some "sleep_summary") = some e →
      e.duration_sec = some 0 → (aggregateUserDay events).hours_slept = none) ∧
    (∀ e, (activityTypeEvents events).find?
        (fun e => e.action_after == some "steps") = some e →
      e.duration_sec = some 0 → (aggregateUserDay events).steps = none) ∧
    (∀ e, (activityTypeEvents events).find?
        (fun e => e.action_after == some "hrv") = some e →
      e.message_sentiment = some 0 → (aggregateUserDay events).hrv = none) := by
  refine ⟨?_, ?_, ?_, ?_⟩
  · intro h
    simp [aggregateUserDay, optFalsy, h]
  · intro e hf hd
    simp [aggregateUserDay, optFalsy, hf, hd]
  · intro e hf hd
    simp [aggregateUserDay, optFalsy, hf, hd]
  · intro e hf hd
    simp [aggregateUserDay, optFalsy, hf, hd]

/-- C10 witness: a day whose sleep_summary has duration 0, whose steps
event stores 0 and whose hrv event stores sentiment 0 yields null for
all three features. -/
theorem C10_biometric_zero_collapse_witness :
    (aggregateUserDay zeroBiometricDay).hours_slept = none ∧
      (aggregateUserDay zeroBiometricDay).steps = none ∧
      (aggregateUserDay zeroBiometricDay).hrv = none := by
  have h := C10_biometric_zero_collapse zeroBiometricDay
  refine
    ⟨h.2.1 ⟨"activity", some 0, none, some "sleep_summary", none, none, none⟩
        ?_ rfl,
      h.2.2.1 ⟨"activity", some 0, none, some "steps", none, none, none⟩
        ?_ rfl,
      h.2.2.2 ⟨"activity", none, none, some "hrv", none, some 0, none⟩
        ?_ rfl⟩ <;>
    simp [zeroBiometricDay, activityTypeEvents, List.filter, List.find?]
